import Mathlib

/-!
Shallow embedding of the `ikconfig` repository (Go): the byte-pattern
scanner `SearchBytes` (magic search), the compression-type data model with
its `Magic` signature table, the `decompress` format dispatch, and
`ParseKernelConfig` / `KernelConfigMap.Get`.

Bytes are modelled as `Nat` values, buffers as `List Nat`.  File system
reads, temporary directories and the external decompression libraries
(gzip/bzip2/xz/zstd readers) are external collaborators and appear as an
explicit environment record.  A Go runtime panic (index out of range) is
modelled by a dedicated outcome (`SearchOutcome.fault`, or `Option.none`
at the function boundary); fallible operations return `Except`.
-/

namespace Ikconfig

/-! ### Magic scanner (`SearchBytes` in magic.go) -/

/-- Outcome of the in-memory scan loop of `SearchBytes`: a match offset,
no match, or a Go runtime fault (index out of range). -/
inductive SearchOutcome where
  | found (i : Nat)
  | notFound
  | fault
deriving DecidableEq

/-- The inner comparison loop of `SearchBytes`:
`for j := 1; j < len(b); j++ { if dat[i+j] != b[j] { found = false; break } }`.
`bs` is the still-uncompared suffix of the pattern (`b` from index `j` on),
which makes the recursion structural; `dat[i+j]` out of range is a Go
panic, returned as `Option.none`. -/
def innerCmp (dat : List Nat) (i : Nat) : Nat → List Nat → Option Bool
  | _, [] => some true
  | j, bj :: rest =>
    match dat[i + j]? with
    | Option.none => Option.none
    | some d => if d = bj then innerCmp dat i (j + 1) rest else some false

/-- The outer loop of `SearchBytes`:
`for i := 0; i < len(dat); i++ { if dat[i] == b[0] { ... } }`.
`ds` is the not-yet-scanned suffix `dat.drop i`, which makes the recursion
structural; `b[0]` on an empty pattern is a Go panic. -/
def searchLoop (dat b : List Nat) : Nat → List Nat → SearchOutcome
  | _, [] => SearchOutcome.notFound
  | i, d :: rest =>
    match b[0]? with
    | Option.none => SearchOutcome.fault
    | some b0 =>
      if d = b0 then
        match innerCmp dat i 1 b.tail with
        | Option.none => SearchOutcome.fault
        | some true => SearchOutcome.found i
        | some false => searchLoop dat b (i + 1) rest
      else searchLoop dat b (i + 1) rest

/-- `SearchBytes` restricted to the in-memory buffer (the code after the
`os.ReadFile` call). -/
def searchBytesBuf (dat b : List Nat) : SearchOutcome :=
  searchLoop dat b 0 dat

/-- Errors of the package, mirroring the Go error values:
`MagicNotFoundErr` carries the searched pattern; I/O errors carry the
path; `fmt.Errorf("...: %w", err)` wrapping is `wrap`. -/
inductive IkError where
  | ioError (file : String)
  | magicNotFound (magic : List Nat)
  | decodeError (format msg : String)
  | wrap (ctx : String) (inner : IkError)
deriving DecidableEq

/-- `SearchBytes(file, b)`: read the file (I/O failure is wrapped with
"error reading file"), scan; a missing match is `MagicNotFoundErr`
carrying the pattern.  `Option.none` is a Go runtime panic. -/
def SearchBytes (fs : String → Option (List Nat)) (file : String) (b : List Nat) :
    Option (Except IkError Nat) :=
  match fs file with
  | Option.none => some (Except.error (IkError.wrap "error reading file" (IkError.ioError file)))
  | some dat =>
    match searchBytesBuf dat b with
    | SearchOutcome.found i => some (Except.ok i)
    | SearchOutcome.notFound => some (Except.error (IkError.magicNotFound b))
    | SearchOutcome.fault => Option.none

/-- The specification-side predicate "the pattern `b` occurs in `dat` at
start index `i`", i.e. `dat[i : i+len(b)] == b`. -/
def matchAt (dat b : List Nat) (i : Nat) : Prop :=
  i + b.length ≤ dat.length ∧ ∀ m, m < b.length → dat[i + m]? = b[m]?

/-! ### Compression-type data model (ikconfig.go) -/

/-- `KernelCompressionType`, the nine iota constants in declaration
order (gzip = 0, ..., none = 7, unknown = 8). -/
inductive KernelCompressionType where
  | gzip
  | bzip2
  | lzma
  | xz
  | lzo
  | lz4
  | zstd
  | none
  | unknown
deriving DecidableEq

/-- The iota value of each enum constant. -/
def KernelCompressionType.toIdx : KernelCompressionType → Nat
  | KernelCompressionType.gzip => 0
  | KernelCompressionType.bzip2 => 1
  | KernelCompressionType.lzma => 2
  | KernelCompressionType.xz => 3
  | KernelCompressionType.lzo => 4
  | KernelCompressionType.lz4 => 5
  | KernelCompressionType.zstd => 6
  | KernelCompressionType.none => 7
  | KernelCompressionType.unknown => 8

/-- The three-entry array literal inside `Magic()`, in source order with
the source's own labels: index 0 is commented GZIP, index 1 XZ,
index 2 bunzip2. -/
def magicTable : List (List Nat) :=
  [[0x1f, 0x8b],
   [0x5c, 0x33, 0x37, 0x35, 0x37, 0x7a, 0x58, 0x59, 0x00],
   [0x42, 0x5a, 0x68]]

/-- `func (k KernelCompressionType) Magic() []byte`: indexes the
three-entry array by the enum value; an index past the end is a Go
runtime panic, modelled as `Option.none`. -/
def KernelCompressionType.Magic (k : KernelCompressionType) : Option (List Nat) :=
  magicTable.get? k.toIdx

/-- `KERNEL_CONFIG_MAGIC = []byte{'I','K','C','F','G'}`. -/
def KERNEL_CONFIG_MAGIC : List Nat := [0x49, 0x4b, 0x43, 0x46, 0x47]

/-- The `KernelConfigMap` (`map[string]string`), as its lookup function. -/
def KernelConfigMap : Type := String → Option String

/-- `func (k *KernelConfigMap) Get(key string) (string, error)`:
a present key yields its value, an absent key yields
`fmt.Errorf("key %q not found", key)`. -/
def KernelConfigMap.Get (k : KernelConfigMap) (key : String) : Except String String :=
  match k key with
  | some val => Except.ok val
  | Option.none => Except.error ("key \"" ++ key ++ "\" not found")

/-- The literal `&KernelConfigMap{}` returned by `ParseKernelConfig`. -/
def emptyKernelConfigMap : KernelConfigMap := fun _ => Option.none

/-- The `KernelConfig` struct: source path, decompressed path (zero
value `""` until `decompress` runs), compression type. -/
structure KernelConfig where
  path : String
  pathDecompressed : String
  compressionType : KernelCompressionType
deriving DecidableEq

/-- External collaborators of the decoder: the readable files, the
temporary directory handed out by `os.MkdirTemp`, and the library
decompressors (`gzip.NewReader`+`io.Copy` collapsed to one
whole-stream decode each; `gzipNewReader` is the header check that
`gzip.NewReader` performs on the inner config stream). -/
structure Env where
  fs : String → Option (List Nat)
  tmpdir : String
  gzipDecode : List Nat → Except String (List Nat)
  bzip2Decode : List Nat → Except String (List Nat)
  xzDecode : List Nat → Except String (List Nat)
  zstdDecode : List Nat → Except String (List Nat)
  gzipNewReader : List Nat → Except String Unit

/-- `func NewKernelConfig(path, compression)`: `os.Stat` check, then the
struct with the zero-valued decompressed path. -/
def NewKernelConfig (fs : String → Option (List Nat)) (path : String)
    (compression : KernelCompressionType) : Except IkError KernelConfig :=
  match fs path with
  | Option.none => Except.error (IkError.wrap "file not found" (IkError.ioError path))
  | some _ =>
    Except.ok { path := path, pathDecompressed := "", compressionType := compression }

/-- `func (k *KernelConfig) decompress() error`, returning the updated
struct together with the bytes that end up in the decompressed file.
Mirrors the Go switch: the `NONE` case calls `os.Link` whose error is
discarded (the target was already created by `os.Create`, so the file
stays empty); the `UNKNOWN`, `LZMA`, `LZO` and `LZ4` cases have empty
bodies, so Go falls out of the switch and returns a nil error with the
created file still empty; the `default` clause (unknown/unsupported
compression type error) is unreachable because every enum constant has
a case.  The open failure of `k.path` is wrapped with the source's
"error finding magic string for ..." context string. -/
def decompress (env : Env) (k : KernelConfig) :
    Except IkError (KernelConfig × List Nat) :=
  let pathD := env.tmpdir ++ "/vmlinux"
  let k' : KernelConfig := { k with pathDecompressed := pathD }
  match env.fs k.path with
  | Option.none =>
    Except.error (IkError.wrap "error finding magic string for compression type"
      (IkError.ioError k.path))
  | some dat =>
    match k.compressionType with
    | KernelCompressionType.none => Except.ok (k', [])
    | KernelCompressionType.unknown => Except.ok (k', [])
    | KernelCompressionType.gzip =>
      match env.gzipDecode dat with
      | Except.error msg => Except.error (IkError.decodeError "gzip" msg)
      | Except.ok out => Except.ok (k', out)
    | KernelCompressionType.bzip2 =>
      match env.bzip2Decode dat with
      | Except.error msg => Except.error (IkError.decodeError "bzip2" msg)
      | Except.ok out => Except.ok (k', out)
    | KernelCompressionType.lzma => Except.ok (k', [])
    | KernelCompressionType.xz =>
      match env.xzDecode dat with
      | Except.error msg => Except.error (IkError.decodeError "xz" msg)
      | Except.ok out => Except.ok (k', out)
    | KernelCompressionType.zstd =>
      match env.zstdDecode dat with
      | Except.error msg => Except.error (IkError.decodeError "zstd" msg)
      | Except.ok out => Except.ok (k', out)
    | KernelCompressionType.lzo => Except.ok (k', [])
    | KernelCompressionType.lz4 => Except.ok (k', [])

/-- `func (k *KernelConfig) findKernelConfigMagic() (uint, error)`:
`SearchBytes(k.path, KERNEL_CONFIG_MAGIC)` — note the argument is
`k.path`, the original source file. -/
def findKernelConfigMagic (env : Env) (k : KernelConfig) : Option (Except IkError Nat) :=
  SearchBytes env.fs k.path KERNEL_CONFIG_MAGIC

/-- `func (k *KernelConfig) findCompressionMagic() (uint, error)`:
`SearchBytes(k.path, k.compressionType.Magic())`; a panic inside
`Magic()` propagates. -/
def findCompressionMagic (env : Env) (k : KernelConfig) : Option (Except IkError Nat) :=
  match k.compressionType.Magic with
  | Option.none => Option.none
  | some m => SearchBytes env.fs k.path m

/-- `func (k *KernelConfig) ParseKernelConfig() (*KernelConfigMap, error)`:
decompress; `findKernelConfigMagic` (which scans `k.path`); read the
decompressed file; slice `configDecompressed[magicOffset+8:]` (a Go
panic when the offset overruns the decompressed length); `os.Open("config")`;
`gzip.NewReader` over the sliced buffer; `io.Copy` whose error is
discarded; finally return the literal `&KernelConfigMap{}`.
`Option.none` is a Go runtime panic. -/
def ParseKernelConfig (env : Env) (k : KernelConfig) :
    Option (Except IkError (KernelConfig × KernelConfigMap)) :=
  match decompress env k with
  | Except.error e =>
    some (Except.error (IkError.wrap "error decompressing kernel config" e))
  | Except.ok (k', content) =>
    match findKernelConfigMagic env k' with
    | Option.none => Option.none
    | some (Except.error e) =>
      some (Except.error (IkError.wrap "error finding magic string in kernel config" e))
    | some (Except.ok magicOffset) =>
      if magicOffset + 8 ≤ content.length then
        match env.fs "config" with
        | Option.none =>
          some (Except.error (IkError.wrap "error opening config file" (IkError.ioError "config")))
        | some _ =>
          match env.gzipNewReader (content.drop (magicOffset + 8)) with
          | Except.error msg =>
            some (Except.error (IkError.wrap "error creating gzip reader"
              (IkError.decodeError "gzip" msg)))
          | Except.ok _ => some (Except.ok (k', emptyKernelConfigMap))
      else Option.none

/-! ### Concrete environments used to evaluate the decoder -/

/-- Environment whose only file content is `[1, 2, 3]` and whose
decoders all fail; only the dispatch structure of `decompress`
matters here. -/
def env0 : Env :=
  { fs := fun _ => some [1, 2, 3]
    tmpdir := "/tmp/ikconfig0"
    gzipDecode := fun _ => Except.error "gzip"
    bzip2Decode := fun _ => Except.error "bzip2"
    xzDecode := fun _ => Except.error "xz"
    zstdDecode := fun _ => Except.error "zstd"
    gzipNewReader := fun _ => Except.ok () }

/-- Decompressed bytes that contain `KERNEL_CONFIG_MAGIC` at offset 0. -/
def decomp4 : List Nat := KERNEL_CONFIG_MAGIC ++ [0, 0, 0, 0]

/-- Environment for the marker-location scenario: the original file
`"kern"` holds `[1, 2, 3]` (no `IKCFG` bytes), while its gzip payload
decompresses to `decomp4`, which starts with the marker. -/
def env4 : Env :=
  { fs := fun s =>
      if s = "kern" then some [1, 2, 3]
      else if s = "config" then some [] else Option.none
    tmpdir := "/tmp/ikconfig4"
    gzipDecode := fun _ => Except.ok decomp4
    bzip2Decode := fun _ => Except.error "bzip2"
    xzDecode := fun _ => Except.error "xz"
    zstdDecode := fun _ => Except.error "zstd"
    gzipNewReader := fun _ => Except.ok () }

/-- A gzip-tagged handle on the file `"kern"`. -/
def kcGz : KernelConfig :=
  { path := "kern", pathDecompressed := "", compressionType := KernelCompressionType.gzip }

/-- A handle on the file `"k"` with the given compression tag. -/
def kcK (t : KernelCompressionType) : KernelConfig :=
  { path := "k", pathDecompressed := "", compressionType := t }

/-- The handle `kcK t` after `decompress` under `env0` has filled in the
decompressed path. -/
def kcK0 (t : KernelCompressionType) : KernelConfig :=
  { path := "k", pathDecompressed := "/tmp/ikconfig0/vmlinux", compressionType := t }

/-- Original bytes for the end-to-end success scenario: the marker at
offset 0 followed by filler, so the magic search succeeds at 0. -/
def dat7 : List Nat := KERNEL_CONFIG_MAGIC ++ [9, 9, 9]

/-- Decompressed bytes for the success scenario: 8 header bytes, then
an (abstract) inner gzip stream whose plain text would be the line
`CONFIG_CC_VERSION_TEXT=gcc`. -/
def decomp7 : List Nat := [0, 0, 0, 0, 0, 0, 0, 0] ++ [1, 2, 3]

/-- The handle `kcGz` after `decompress` under `env7` has filled in the
decompressed path. -/
def kcGz7 : KernelConfig :=
  { path := "kern", pathDecompressed := "/tmp/ikconfig7/vmlinux"
    compressionType := KernelCompressionType.gzip }

/-- Environment for the end-to-end success scenario: every step of
`ParseKernelConfig` succeeds. -/
def env7 : Env :=
  { fs := fun s =>
      if s = "kern" then some dat7
      else if s = "config" then some [] else Option.none
    tmpdir := "/tmp/ikconfig7"
    gzipDecode := fun _ => Except.ok decomp7
    bzip2Decode := fun _ => Except.error "bzip2"
    xzDecode := fun _ => Except.error "xz"
    zstdDecode := fun _ => Except.error "zstd"
    gzipNewReader := fun _ => Except.ok () }

/-! ### Claim theorems (evaluation of the code on concrete inputs) -/

/-- C1: false on the code — at a candidate start index where the pattern
extends past the end of the buffer, `SearchBytes` does not reject the
candidate; it reads `dat[i+j]` out of bounds and faults.  On the buffer
`[0x00]` with pattern `[0x00, 0x01]` (no occurrence exists anywhere) the
scan faults instead of rejecting the candidate at index 0. -/
theorem searchBytes_candidate_overrun_faults :
    searchBytesBuf [0] [0, 1] = SearchOutcome.fault ∧
      ∀ i, ¬ matchAt [0] [0, 1] i := by
  refine ⟨rfl, ?_⟩
  intro i h
  have hlen : i + 2 ≤ 1 := by simpa [matchAt] using h.1
  omega

/-- C2: false on the code in its Not-Found half — on the buffer `[0x05]`
with pattern `[0x05, 0x05]` no occurrence exists, so the claim requires
the not-found outcome, but the scan faults (index out of range). -/
theorem searchBytes_no_match_faults :
    searchBytesBuf [5] [5, 5] = SearchOutcome.fault ∧
      ∀ i, ¬ matchAt [5] [5, 5] i := by
  refine ⟨rfl, ?_⟩
  intro i h
  have hlen : i + 2 ≤ 1 := by simpa [matchAt] using h.1
  omega

/-- C3: false on the code — the `LZMA`, `LZO` and `LZ4` cases of the
`decompress` switch have empty bodies, so Go falls out of the switch and
returns a nil error: decompression is reported successful with a
zero-length decompressed file, instead of an "unsupported format"
error. -/
theorem decompress_unsupported_silently_succeeds :
    decompress env0 (kcK KernelCompressionType.lzma) =
      Except.ok (kcK0 KernelCompressionType.lzma, []) ∧
    decompress env0 (kcK KernelCompressionType.lzo) =
      Except.ok (kcK0 KernelCompressionType.lzo, []) ∧
    decompress env0 (kcK KernelCompressionType.lz4) =
      Except.ok (kcK0 KernelCompressionType.lz4, []) :=
  ⟨rfl, rfl, rfl⟩

/-- C5: false on the code — the `UNKNOWN` case of the `decompress` switch
contains only the comment "try all the compression types": no magic
signature is probed, and `decompress` returns success with a zero-length
result instead of an "unrecognized format" error. -/
theorem decompress_unknown_no_probe :
    decompress env0 (kcK KernelCompressionType.unknown) =
      Except.ok (kcK0 KernelCompressionType.unknown, []) :=
  rfl

/-- C6: false on the code — `Magic()` indexes a three-entry array by the
nine-valued enum: `XZ` (iota 3) and `ZSTD` (iota 6) index past the end
and fault; `BZIP2` (iota 1) receives the entry the source labels XZ, not
the bzip2 signature `42 5a 68` (which sits at index 2 = `LZMA`); only
`GZIP` gets its own signature. -/
theorem magic_mapping_faults :
    KernelCompressionType.Magic KernelCompressionType.xz = Option.none ∧
    KernelCompressionType.Magic KernelCompressionType.zstd = Option.none ∧
    KernelCompressionType.Magic KernelCompressionType.gzip = some [0x1f, 0x8b] ∧
    KernelCompressionType.Magic KernelCompressionType.bzip2 =
      some [0x5c, 0x33, 0x37, 0x35, 0x37, 0x7a, 0x58, 0x59, 0x00] ∧
    KernelCompressionType.Magic KernelCompressionType.bzip2 ≠ some [0x42, 0x5a, 0x68] := by
  refine ⟨rfl, rfl, rfl, rfl, ?_⟩
  decide

/-- C4: false on the code — `findKernelConfigMagic` runs `SearchBytes` on
`k.path`, the original compressed file, not on the decompressed bytes:
with the original file `[1, 2, 3]` whose gzip payload decompresses to
bytes starting with the marker, extraction nevertheless fails with the
marker-not-found error, even though the marker occurs at offset 0 of the
decompressed bytes. -/
theorem parse_scans_original_not_decompressed :
    ParseKernelConfig env4 kcGz =
      some (Except.error (IkError.wrap "error finding magic string in kernel config"
        (IkError.magicNotFound KERNEL_CONFIG_MAGIC))) ∧
    searchBytesBuf decomp4 KERNEL_CONFIG_MAGIC = SearchOutcome.found 0 :=
  ⟨rfl, rfl⟩

/-- C7: false on the code — on a fully successful extraction,
`ParseKernelConfig` returns the literal `&KernelConfigMap{}`: the empty
map, with no line parsed at all; even the key the repository's own test
expects (`CONFIG_CC_VERSION_TEXT`) is reported not found. -/
theorem parse_returns_empty_map :
    ParseKernelConfig env7 kcGz =
      some (Except.ok (kcGz7, emptyKernelConfigMap)) ∧
    KernelConfigMap.Get emptyKernelConfigMap "CONFIG_CC_VERSION_TEXT" =
      Except.error "key \"CONFIG_CC_VERSION_TEXT\" not found" :=
  ⟨rfl, rfl⟩

/-! ### Characterization of the scanner's found outcome -/

/-- The inner comparison loop answers `some true` exactly when every byte
of the remaining pattern suffix `bs` (sitting at pattern offset `j`)
agrees with the buffer at the corresponding position — in particular all
those positions are in bounds. -/
theorem innerCmp_eq_some_true (dat : List Nat) (i : Nat) :
    ∀ (bs : List Nat) (j : Nat),
      innerCmp dat i j bs = some true ↔
        ∀ m, m < bs.length → dat[i + j + m]? = bs[m]? := by
  intro bs
  induction bs with
  | nil =>
    intro j
    simp [innerCmp]
  | cons bj rest ih =>
    intro j
    cases hd : dat[i + j]? with
    | none =>
      constructor
      · intro h
        exfalso
        simp [innerCmp, hd] at h
      · intro h
        exfalso
        have h0 := h 0 (by simp)
        rw [Nat.add_zero] at h0
        rw [hd] at h0
        simp at h0
    | some d =>
      by_cases hdb : d = bj
      · subst hdb
        constructor
        · intro h m hm
          rw [innerCmp, hd] at h
          simp only [if_pos rfl] at h
          cases m with
          | zero =>
            rw [Nat.add_zero, hd]
            simp
          | succ m' =>
            have hm' : m' < rest.length := by
              simp only [List.length_cons] at hm
              omega
            have hr := ((ih (j + 1)).mp h) m' hm'
            have harith : i + (j + 1) + m' = i + j + (m' + 1) := by omega
            rw [harith] at hr
            rw [hr]
            simp
        · intro h
          rw [innerCmp, hd]
          simp only [if_pos rfl]
          apply (ih (j + 1)).mpr
          intro m' hm'
          have hr := h (m' + 1) (by simp only [List.length_cons]; omega)
          have harith : i + j + (m' + 1) = i + (j + 1) + m' := by omega
          rw [harith] at hr
          rw [hr]
          simp
      · constructor
        · intro h
          exfalso
          simp [innerCmp, hd, hdb] at h
        · intro h
          exfalso
          have h0 := h 0 (by simp)
          rw [Nat.add_zero] at h0
          rw [hd] at h0
          simp at h0
          exact hdb h0

/-- Loop invariant for the outer scan: when `searchLoop` is entered at
index `i` with the suffix `dat.drop i` still to scan and answers
`found k`, then `k` is the least index at or after `i` where the pattern
occurs. -/
theorem searchLoop_found_spec (dat b : List Nat) :
    ∀ (ds : List Nat) (i k : Nat), dat.drop i = ds →
      searchLoop dat b i ds = SearchOutcome.found k →
      i ≤ k ∧ matchAt dat b k ∧ ∀ m, i ≤ m → m < k → ¬ matchAt dat b m := by
  intro ds
  induction ds with
  | nil =>
    intro i k _ h
    exact absurd h (by simp [searchLoop])
  | cons d rest ih =>
    intro i k hds h
    have hget : dat[i]? = some d := by
      have h0 : (dat.drop i)[0]? = some d := by rw [hds]; simp
      rw [List.getElem?_drop] at h0
      rw [Nat.add_zero] at h0
      exact h0
    have hrest : dat.drop (i + 1) = rest := by
      have h1 : dat.drop (i + 1) = (dat.drop i).tail := by
        rw [← List.drop_one, List.drop_drop]
      rw [h1, hds]
      rfl
    cases hb0 : b[0]? with
    | none =>
      exact absurd h (by simp [searchLoop, hb0])
    | some b0 =>
      have hblen : 0 < b.length := by
        cases b with
        | nil => simp at hb0
        | cons _ _ => simp
      have htail : ∀ m : Nat, b.tail[m]? = b[m + 1]? := by
        intro m
        cases b <;> simp
      by_cases hdb : d = b0
      · cases hic : innerCmp dat i 1 b.tail with
        | none =>
          exact absurd h (by simp [searchLoop, hb0, hdb, hic])
        | some tv =>
          cases tv with
          | true =>
            have hk : i = k := by
              have h' := h
              simp [searchLoop, hb0, hdb, hic] at h'
              exact h'
            subst hk
            have hpt : ∀ m, m < b.length → dat[i + m]? = b[m]? := by
              intro m hm
              cases m with
              | zero =>
                rw [Nat.add_zero, hget, hdb, hb0]
              | succ m' =>
                have hsp := (innerCmp_eq_some_true dat i b.tail 1).mp hic
                have hlt : m' < b.tail.length := by
                  rw [List.length_tail]
                  omega
                have hv := hsp m' hlt
                have harith : i + 1 + m' = i + (m' + 1) := by omega
                rw [harith] at hv
                rw [hv, htail m']
            refine ⟨Nat.le_refl i, ⟨?_, hpt⟩, by intro m h1 h2; omega⟩
            have hlast := hpt (b.length - 1) (by omega)
            have hex : ∃ v, b[b.length - 1]? = some v := by
              rw [List.getElem?_eq_getElem (by omega : b.length - 1 < b.length)]
              exact ⟨b[b.length - 1], rfl⟩
            obtain ⟨v, hv⟩ := hex
            have hdv : dat[i + (b.length - 1)]? = some v := by
              rw [hlast, hv]
            have hlt2 : i + (b.length - 1) < dat.length :=
              (List.getElem?_eq_some_iff.mp hdv).1
            omega
          | false =>
            have hrec : searchLoop dat b (i + 1) rest = SearchOutcome.found k := by
              have h' := h
              simp [searchLoop, hb0, hdb, hic] at h'
              exact h'
            obtain ⟨hik, hmk, hmin⟩ := ih (i + 1) k hrest hrec
            refine ⟨by omega, hmk, ?_⟩
            intro m him hmk2
            rcases Nat.lt_or_ge i m with hlt | hge
            · exact hmin m (by omega) hmk2
            · have hmi : m = i := by omega
              rw [hmi]
              intro hmatch
              obtain ⟨hlen2, hpt2⟩ := hmatch
              have htrue : innerCmp dat i 1 b.tail = some true := by
                apply (innerCmp_eq_some_true dat i b.tail 1).mpr
                intro m' hm'
                have hbl : b.tail.length = b.length - 1 := List.length_tail b
                have hv := hpt2 (m' + 1) (by omega)
                have harith : i + (m' + 1) = i + 1 + m' := by omega
                rw [harith] at hv
                rw [hv, htail m']
              rw [htrue] at hic
              simp at hic
      · have hrec : searchLoop dat b (i + 1) rest = SearchOutcome.found k := by
          have h' := h
          simp [searchLoop, hb0, hdb] at h'
          exact h'
        obtain ⟨hik, hmk, hmin⟩ := ih (i + 1) k hrest hrec
        refine ⟨by omega, hmk, ?_⟩
        intro m him hmk2
        rcases Nat.lt_or_ge i m with hlt | hge
        · exact hmin m (by omega) hmk2
        · have hmi : m = i := by omega
          rw [hmi]
          intro hmatch
          obtain ⟨hlen2, hpt2⟩ := hmatch
          have h00 := hpt2 0 hblen
          rw [Nat.add_zero, hget, hb0] at h00
          simp at h00
          exact hdb h00

/-- When `SearchBytes`'s scan over a whole buffer answers `found k`, the
pattern occurs at `k` and at no smaller index. -/
theorem searchBytesBuf_found_spec (dat b : List Nat) (k : Nat)
    (h : searchBytesBuf dat b = SearchOutcome.found k) :
    matchAt dat b k ∧ ∀ m, m < k → ¬ matchAt dat b m := by
  have hs := searchLoop_found_spec dat b dat 0 k (List.drop_zero dat) h
  exact ⟨hs.2.1, fun m hm => hs.2.2 m (Nat.zero_le m) hm⟩

/-- An occurrence of a pattern is also an occurrence of each of the
pattern's leading parts: if `p1 <+: p2` and `p2` occurs at `i`, so does
`p1`. -/
theorem matchAt_of_matchAt_longer (dat p1 p2 : List Nat) (i : Nat)
    (hpre : p1 <+: p2) (h : matchAt dat p2 i) : matchAt dat p1 i := by
  obtain ⟨t, rfl⟩ := hpre
  obtain ⟨hlen, hpt⟩ := h
  constructor
  · rw [List.length_append] at hlen
    omega
  · intro m hm
    have hv := hpt m (by rw [List.length_append]; omega)
    rw [List.getElem?_append_left hm] at hv
    exact hv

/-- C8: for every buffer `B` and non-empty patterns `p1 <+: p2`, when
both in-buffer searches succeed the offset found for `p1` is at most the
offset found for `p2`; and when both patterns occur at the same first
index (i.e. `p2` also occurs at `p1`'s offset), both searches report the
same offset. -/
theorem searchBytes_monotone_length (B p1 p2 : List Nat) (i1 i2 : Nat)
    (hne : p1 ≠ []) (hpre : p1 <+: p2)
    (h1 : searchBytesBuf B p1 = SearchOutcome.found i1)
    (h2 : searchBytesBuf B p2 = SearchOutcome.found i2) :
    i1 ≤ i2 ∧ (matchAt B p2 i1 → i1 = i2) := by
  obtain ⟨hm1, hmin1⟩ := searchBytesBuf_found_spec B p1 i1 h1
  obtain ⟨hm2, hmin2⟩ := searchBytesBuf_found_spec B p2 i2 h2
  have hle : i1 ≤ i2 := by
    by_contra hgt
    push_neg at hgt
    exact hmin1 i2 hgt (matchAt_of_matchAt_longer B p1 p2 i2 hpre hm2)
  refine ⟨hle, fun hm => ?_⟩
  by_contra hne2
  exact hmin2 i1 (by omega) hm

/-- C8 witness: on the all-zero buffer `[0,0,0,0]`, the searches for
`[0]` and for `[0,0]` both return offset 0, as the spec's example
demands. -/
theorem searchBytes_monotone_length_witness :
    (([0] : List Nat) ≠ [] ∧ ([0] : List Nat) <+: [0, 0] ∧
      searchBytesBuf [0, 0, 0, 0] [0] = SearchOutcome.found 0 ∧
      searchBytesBuf [0, 0, 0, 0] [0, 0] = SearchOutcome.found 0) ∧
    (0 ≤ 0 ∧ (matchAt [0, 0, 0, 0] [0, 0] 0 → 0 = 0)) :=
  ⟨⟨by decide, ⟨[0], rfl⟩, rfl, rfl⟩,
    searchBytes_monotone_length [0, 0, 0, 0] [0] [0, 0] 0 0
      (by decide) ⟨[0], rfl⟩ rfl rfl⟩

/-- C9: `SearchBytes` keeps its two failure modes apart and surfaces
both — a file-read failure yields the wrapped I/O error, an absent
pattern yields `MagicNotFoundErr` carrying the searched pattern, and the
two error values are distinct. -/
theorem searchBytes_error_modes (fs : String → Option (List Nat))
    (file : String) (b dat : List Nat) :
    (fs file = Option.none →
      SearchBytes fs file b =
        some (Except.error (IkError.wrap "error reading file" (IkError.ioError file)))) ∧
    (fs file = some dat → searchBytesBuf dat b = SearchOutcome.notFound →
      SearchBytes fs file b = some (Except.error (IkError.magicNotFound b))) ∧
    IkError.wrap "error reading file" (IkError.ioError file) ≠ IkError.magicNotFound b := by
  refine ⟨?_, ?_, by intro h; cases h⟩
  · intro h
    simp [SearchBytes, h]
  · intro h hnf
    simp [SearchBytes, h, hnf]

/-- C9 witness: a missing file yields the wrapped I/O error; a buffer
`[1,1]` without the pattern `[0]` yields the not-found error carrying
the pattern `[0]`. -/
theorem searchBytes_error_modes_witness :
    (SearchBytes (fun _ => Option.none) "f" [0] =
      some (Except.error (IkError.wrap "error reading file" (IkError.ioError "f")))) ∧
    (SearchBytes (fun _ => some [1, 1]) "f" [0] =
      some (Except.error (IkError.magicNotFound [0]))) :=
  ⟨(searchBytes_error_modes (fun _ => Option.none) "f" [0] []).1 rfl,
    (searchBytes_error_modes (fun _ => some [1, 1]) "f" [0] [1, 1]).2.1 rfl rfl⟩

/-- Concatenating strings concatenates their character lists. -/
theorem string_data_append (a b : String) : (a ++ b).data = a.data ++ b.data := by
  cases a
  cases b
  rfl

/-- C10: `Get` answers the stored value without error exactly when the
key is mapped, and an error whose message contains the key exactly when
it is not; `Get` is a pure read of the mapping. -/
theorem kernelConfigMap_get_spec (m : KernelConfigMap) (key : String) :
    (∀ v, KernelConfigMap.Get m key = Except.ok v ↔ m key = some v) ∧
    (m key = Option.none ↔
      ∃ msg, KernelConfigMap.Get m key = Except.error msg ∧
        ∃ s t, msg.data = s ++ key.data ++ t) := by
  constructor
  · intro v
    cases hk : m key <;> simp [KernelConfigMap.Get, hk]
  · constructor
    · intro h
      refine ⟨"key \"" ++ key ++ "\" not found", by simp [KernelConfigMap.Get, h],
        ("key \"" : String).data, ("\" not found" : String).data, ?_⟩
      rw [string_data_append, string_data_append]
    · rintro ⟨msg, hmsg, _⟩
      cases hk : m key with
      | none => rfl
      | some v => simp [KernelConfigMap.Get, hk] at hmsg

/-- C10 witness: on the empty mapping, `Get "CONFIG_X"` never answers a
value and does answer an error message containing the key. -/
theorem kernelConfigMap_get_spec_witness :
    (∀ v, KernelConfigMap.Get emptyKernelConfigMap "CONFIG_X" = Except.ok v ↔
      emptyKernelConfigMap "CONFIG_X" = some v) ∧
    (emptyKernelConfigMap "CONFIG_X" = Option.none ↔
      ∃ msg, KernelConfigMap.Get emptyKernelConfigMap "CONFIG_X" = Except.error msg ∧
        ∃ s t, msg.data = s ++ ("CONFIG_X" : String).data ++ t) :=
  kernelConfigMap_get_spec emptyKernelConfigMap "CONFIG_X"

end Ikconfig
